import Mathlib

/-!
Verification of the tour-break gap analysis engine of the phishmuse repository:
a shallow embedding of the relevant code in `src/src/data_loader.py`
(`PhishDataLoader`) and `src/src/tour_gap_analysis.py` (`TourGapAnalyzer`).

Modelling conventions:
* `datetime.date` values are day numbers (`Int`); `(d2 - d1).days` is `d2 - d1`.
* Python `float` values are rationals (`ℚ`).
* The numpy/scipy numeric routines (`np.mean`, `np.median`, `np.std`,
  `scipy.stats.ttest_ind`, `scipy.stats.mannwhitneyu`) live outside the
  repository; they are modelled as an abstract, total, deterministic
  `StatsBackend` that the embedded functions take as a parameter.  All control
  flow (which populations are fed to which routine, and when a routine is
  invoked at all) is translated from the source.
* A Python `dict` in insertion order is an association list.
* Code that can raise (`None.attribute` access) returns `Option`.
-/

namespace Phish

/-- `SongPerformance` (src/src/models.py lines 22-52), restricted to the fields
the gap analysis reads: `song_name`, `show_id`, `show_date` and the
API-supplied `gap` (shows since last played). -/
structure SongPerformance where
  song_name : String
  show_id : Nat
  show_date : Int
  gap : Int
  deriving DecidableEq

/-- `Show` (src/src/models.py lines 55-92), restricted to the fields the gap
analysis reads. -/
structure Show where
  show_id : Nat
  show_date : Int
  tour_id : Option Nat
  tour_name : Option String
  songs : List SongPerformance
  deriving DecidableEq

/-- Default `Show` used for out-of-range list indexing (`List.getD`); the
embedded code only indexes in range. -/
def dShow : Show :=
  { show_id := 0, show_date := 0, tour_id := none, tour_name := none, songs := [] }

/-- `Song` (src/src/models.py lines 113-135), restricted to the fields the gap
analysis reads.  In the loader, `times_played = len(performances)`. -/
structure Song where
  name : String
  times_played : Nat
  performances : List SongPerformance
  deriving DecidableEq

/-- `Tour` (src/src/models.py lines 95-110). -/
structure Tour where
  tour_id : Nat
  name : String
  start_date : Int
  end_date : Int
  shows : List Show
  deriving DecidableEq

/-- `TourBreak` (src/src/models.py lines 138-150). -/
structure TourBreak where
  end_show : Show
  start_show : Show
  days_between : Int
  shows_in_previous_tour : Nat
  shows_in_next_tour : Nat
  deriving DecidableEq

/-- The loaded state of `PhishDataLoader` (src/src/data_loader.py lines 39-51):
`shows` chronologically sorted, `songs` the catalog dict in insertion order,
`tour_breaks` as produced by `_identify_tours_and_breaks`. -/
structure PhishDataLoader where
  shows : List Show
  songs : List (String × Song)
  tour_breaks : List TourBreak
  deriving DecidableEq

/-- The date (day number) of `shows[i]`. -/
def dateAt (shows : List Show) (i : Nat) : Int :=
  (shows.getD i dShow).show_date

/-- `PhishDataLoader.is_tour_break_between` (src/src/data_loader.py lines
244-251): `days = abs((show2.show_date - show1.show_date).days)`, returning
`(days > min_days, days)`.  The Python default for `min_days` is 14; callers
in the embedding pass it explicitly. -/
def isTourBreakBetween (show1 show2 : Show) (min_days : Int) : Bool × Int :=
  let days : Int := |show2.show_date - show1.show_date|
  (decide (min_days < days), days)

/-- `PhishDataLoader._get_show_by_id` (src/src/data_loader.py lines 302-307). -/
def getShowById (l : PhishDataLoader) (sid : Nat) : Option Show :=
  l.shows.find? (fun s => s.show_id == sid)

/-- `PhishDataLoader._get_show_index_by_id` (src/src/data_loader.py lines
309-314): chronological index, or `-1` when absent. -/
def getShowIndexById (l : PhishDataLoader) (sid : Nat) : Int :=
  match l.shows.findIdx? (fun s => s.show_id == sid) with
  | some i => (i : Int)
  | none => -1

/-- `PhishDataLoader._count_consecutive_shows_before` (src/src/data_loader.py
lines 217-225): `count = 1`, then for `i` from `idx` down to `1`, stop at the
first `i` with `shows[i].date - shows[i-1].date > threshold`, else `count += 1`. -/
def countConsecutiveShowsBefore (shows : List Show) (threshold : Int) : Nat → Nat
  | 0 => 1
  | idx + 1 =>
    if threshold < dateAt shows (idx + 1) - dateAt shows idx then 1
    else 1 + countConsecutiveShowsBefore shows threshold idx

/-- The loop of `_count_consecutive_shows_after` with `rem` iterations left
(structural recursion on the iteration count, so that the kernel can
evaluate it). -/
def countAfterAux (shows : List Show) (threshold : Int) : Nat → Nat → Nat
  | _, 0 => 1
  | idx, rem + 1 =>
    if threshold < dateAt shows (idx + 1) - dateAt shows idx then 1
    else 1 + countAfterAux shows threshold (idx + 1) rem

/-- `PhishDataLoader._count_consecutive_shows_after` (src/src/data_loader.py
lines 227-235): `count = 1`, then for `i` from `idx` up to `len(shows) - 2`
(that is, `len(shows) - 1 - idx` iterations), stop at the first `i` with
`shows[i+1].date - shows[i].date > threshold`, else `count += 1`. -/
def countConsecutiveShowsAfter (shows : List Show) (threshold : Int) (idx : Nat) : Nat :=
  countAfterAux shows threshold idx (shows.length - 1 - idx)

/-- The break-emission loop of `PhishDataLoader._identify_tours_and_breaks`
(src/src/data_loader.py lines 196-213): walk adjacent shows (the walked suffix
starts at index `i - 1` of `shows`); whenever
`curr.show_date - prev.show_date > threshold`, emit a `TourBreak` carrying the
backward/forward scan counts at `i - 1` and `i`. -/
def buildBreaksAux (shows : List Show) (threshold : Int) : Nat → List Show → List TourBreak
  | _, [] => []
  | _, [_] => []
  | i, prev :: curr :: rest =>
    let days := curr.show_date - prev.show_date
    let tail := buildBreaksAux shows threshold (i + 1) (curr :: rest)
    if threshold < days then
      { end_show := prev, start_show := curr, days_between := days,
        shows_in_previous_tour := countConsecutiveShowsBefore shows threshold (i - 1),
        shows_in_next_tour := countConsecutiveShowsAfter shows threshold i } :: tail
    else tail

/-- The `tour_id` of a show as a Python truthiness test reads it
(`if show.tour_id:`): `None` and `0` are both falsy. -/
def truthyTourId (s : Show) : Option Nat :=
  match s.tour_id with
  | some t => if t = 0 then none else some t
  | none => none

/-- The distinct truthy tour ids in order of first occurrence: the key order of
the `defaultdict` in `_identify_tours_and_breaks` (src/src/data_loader.py
lines 178-181). -/
def tourIds (shows : List Show) : List Nat :=
  (shows.filterMap truthyTourId).foldl (fun acc t => if t ∈ acc then acc else acc ++ [t]) []

/-- Python's `sorted(shows, key=lambda x: x.show_date)` (a stable sort). -/
def sortShowsByDate (l : List Show) : List Show :=
  List.insertionSort (fun a b => a.show_date ≤ b.show_date) l

/-- The tour-building loop of `_identify_tours_and_breaks`
(src/src/data_loader.py lines 183-194): group shows by truthy `tour_id`, sort
each group by date, and build a `Tour` (name falls back to `"Tour {id}"` when
the first show's `tour_name` is falsy). -/
def buildTours (shows : List Show) : List Tour :=
  (tourIds shows).filterMap (fun tid =>
    let tshows := sortShowsByDate (shows.filter (fun s => truthyTourId s == some tid))
    match tshows with
    | [] => none
    | first :: _ =>
      some { tour_id := tid,
             name := match first.tour_name with
                     | some n => if n = "" then s!"Tour {tid}" else n
                     | none => s!"Tour {tid}",
             start_date := first.show_date,
             end_date := (tshows.getLastD dShow).show_date,
             shows := tshows })

/-- `PhishDataLoader._identify_tours_and_breaks` (src/src/data_loader.py lines
167-215): with fewer than two shows it returns immediately (no tours, no
breaks); otherwise it builds the tours and emits a break for every adjacent
pair more than `threshold` days apart.  The Python default threshold is 14. -/
def identifyToursAndBreaks (shows : List Show) (threshold : Int) : List Tour × List TourBreak :=
  if shows.length < 2 then ([], [])
  else (buildTours shows, buildBreaksAux shows threshold 1 shows)

/-- One entry of the list returned by
`PhishDataLoader.get_performances_with_context` (src/src/data_loader.py lines
253-300). -/
structure PerfContext where
  performance : SongPerformance
  prev_performance : Option SongPerformance
  gap_shows : Int
  gap_days : Int
  crosses_tour_break : Bool
  tour_break_days : Int
  show_index : Int
  deriving DecidableEq

/-- The context-building loop of `get_performances_with_context`
(src/src/data_loader.py lines 271-298), walking the date-sorted performances
and carrying the previous one.  The tour-break check calls
`is_tour_break_between` with its default `min_days = 14` on the shows looked
up by id; a failed lookup is Python's `None.show_date` crash, modelled as
`none`. -/
def contextsAux (l : PhishDataLoader) :
    Option SongPerformance → List SongPerformance → Option (List PerfContext)
  | _, [] => some []
  | prevOpt, p :: rest => do
    let base : PerfContext :=
      { performance := p, prev_performance := none, gap_shows := 0, gap_days := 0,
        crosses_tour_break := false, tour_break_days := 0,
        show_index := getShowIndexById l p.show_id }
    let ctx ← match prevOpt with
      | none => some base
      | some prev => do
        let s1 ← getShowById l prev.show_id
        let s2 ← getShowById l p.show_id
        let r := isTourBreakBetween s1 s2 14
        some { base with
               prev_performance := some prev,
               gap_shows := p.gap,
               gap_days := p.show_date - prev.show_date,
               crosses_tour_break := r.1,
               tour_break_days := if r.1 then r.2 else 0 }
    let tail ← contextsAux l (some p) rest
    some (ctx :: tail)

/-- Python's `sorted(perfs, key=lambda x: x.show_date)` (a stable sort). -/
def sortPerfsByDate (l : List SongPerformance) : List SongPerformance :=
  List.insertionSort (fun a b => a.show_date ≤ b.show_date) l

/-- `PhishDataLoader.get_performances_with_context` (src/src/data_loader.py
lines 253-300): `[]` for a song that is not in the catalog, otherwise one
context per performance in date order. -/
def getPerformancesWithContext (l : PhishDataLoader) (song_name : String) :
    Option (List PerfContext) :=
  match l.songs.find? (fun kv => kv.1 == song_name) with
  | none => some []
  | some (_, song) => contextsAux l none (sortPerfsByDate song.performances)

/-- `GapComparison` (src/src/tour_gap_analysis.py lines 21-45); the dataclass
defaults are `0.0` for the descriptive statistics and `1.0` for both
p-values. -/
structure GapComparison where
  song_name : String
  intra_tour_gaps : List Int
  intra_tour_days : List Int
  cross_tour_gaps : List Int
  cross_tour_days : List Int
  intra_mean_gap : ℚ
  intra_median_gap : ℚ
  intra_std_gap : ℚ
  cross_mean_gap : ℚ
  cross_median_gap : ℚ
  cross_std_gap : ℚ
  ttest_pvalue : ℚ
  mannwhitney_pvalue : ℚ
  deriving DecidableEq

/-- The numpy/scipy routines used by the analyzer, as abstract total
deterministic functions (floats as rationals): `mean`, `median`, `std` are
`np.mean`, `np.median`, `np.std`; `ttest_ind` and `mannwhitneyu` are the
p-value components of `scipy.stats.ttest_ind` and of the two-sided
`scipy.stats.mannwhitneyu`. -/
structure StatsBackend where
  mean : List Int → ℚ
  median : List Int → ℚ
  std : List Int → ℚ
  ttest_ind : List Int → List Int → ℚ
  mannwhitneyu : List Int → List Int → ℚ

/-- A `GapComparison` as `analyze_song` constructs it
(src/src/tour_gap_analysis.py lines 126-132): the four populations given, all
other fields at their dataclass defaults. -/
def mkGapComparison (song_name : String) (ig idy cg cdy : List Int) : GapComparison :=
  { song_name := song_name,
    intra_tour_gaps := ig, intra_tour_days := idy,
    cross_tour_gaps := cg, cross_tour_days := cdy,
    intra_mean_gap := 0, intra_median_gap := 0, intra_std_gap := 0,
    cross_mean_gap := 0, cross_median_gap := 0, cross_std_gap := 0,
    ttest_pvalue := 1, mannwhitney_pvalue := 1 }

/-- `GapComparison.compute_stats` (src/src/tour_gap_analysis.py lines 47-70):
descriptive statistics for each nonempty population, and the two significance
tests only when both populations have at least 5 observations. -/
def computeStats (b : StatsBackend) (c : GapComparison) : GapComparison :=
  let c1 :=
    if c.intra_tour_gaps.isEmpty then c
    else { c with intra_mean_gap := b.mean c.intra_tour_gaps,
                  intra_median_gap := b.median c.intra_tour_gaps,
                  intra_std_gap := b.std c.intra_tour_gaps }
  let c2 :=
    if c.cross_tour_gaps.isEmpty then c1
    else { c1 with cross_mean_gap := b.mean c.cross_tour_gaps,
                   cross_median_gap := b.median c.cross_tour_gaps,
                   cross_std_gap := b.std c.cross_tour_gaps }
  if 5 ≤ c.intra_tour_gaps.length ∧ 5 ≤ c.cross_tour_gaps.length then
    { c2 with ttest_pvalue := b.ttest_ind c.intra_tour_gaps c.cross_tour_gaps,
              mannwhitney_pvalue := b.mannwhitneyu c.intra_tour_gaps c.cross_tour_gaps }
  else c2

/-- `TourGapAnalyzer` (src/src/tour_gap_analysis.py lines 90-95): a loader and
the configured `tour_break_threshold_days` (Python default 14). -/
structure TourGapAnalyzer where
  loader : PhishDataLoader
  break_threshold : Int
  deriving DecidableEq

/-- `TourGapAnalyzer.analyze_song` (src/src/tour_gap_analysis.py lines
97-135): split each context with a previous performance into the cross-tour
population (`crosses_tour_break`) or the intra-tour population, then
`compute_stats`. -/
def analyzeSong (b : StatsBackend) (a : TourGapAnalyzer) (song_name : String) :
    Option GapComparison := do
  let contexts ← getPerformancesWithContext a.loader song_name
  let withPrev := contexts.filter (fun c => c.prev_performance.isSome)
  let crossCtxs := withPrev.filter (fun c => c.crosses_tour_break)
  let intraCtxs := withPrev.filter (fun c => !c.crosses_tour_break)
  some (computeStats b (mkGapComparison song_name
    (intraCtxs.map (fun c => c.gap_shows)) (intraCtxs.map (fun c => c.gap_days))
    (crossCtxs.map (fun c => c.gap_shows)) (crossCtxs.map (fun c => c.gap_days))))

/-- The song loop of `TourGapAnalyzer.analyze_all_songs`
(src/src/tour_gap_analysis.py lines 139-149): walk the catalog in order, skip
songs with `times_played < min_performances`, analyze the rest, and keep the
comparisons whose two populations both have at least 5 observations. -/
def analyzeAllAux (b : StatsBackend) (a : TourGapAnalyzer) (m : Nat) :
    List (String × Song) → Option (List GapComparison)
  | [] => some []
  | (name, song) :: rest =>
    if song.times_played < m then analyzeAllAux b a m rest
    else do
      let comparison ← analyzeSong b a name
      let tail ← analyzeAllAux b a m rest
      if 5 ≤ comparison.intra_tour_gaps.length ∧ 5 ≤ comparison.cross_tour_gaps.length then
        some (comparison :: tail)
      else some tail

/-- `TourGapAnalyzer.analyze_all_songs` (src/src/tour_gap_analysis.py lines
137-151): the qualifying comparisons sorted by Mann-Whitney p-value with
Python's stable `sorted`, modelled by the stable `List.insertionSort`.  The
Python default for `min_performances` is 50. -/
def analyzeAllSongs (b : StatsBackend) (a : TourGapAnalyzer) (m : Nat) :
    Option (List GapComparison) := do
  let results ← analyzeAllAux b a m a.loader.songs
  some (List.insertionSort
    (fun x y => x.mannwhitney_pvalue ≤ y.mannwhitney_pvalue) results)

/-- The per-population block of the dict built by
`TourGapAnalyzer.aggregate_analysis` (src/src/tour_gap_analysis.py lines
185-199): each statistic guarded by `if population else 0`. -/
structure PopStats where
  mean_gap_shows : ℚ
  median_gap_shows : ℚ
  std_gap_shows : ℚ
  mean_gap_days : ℚ
  median_gap_days : ℚ
  deriving DecidableEq

/-- The dict returned by `TourGapAnalyzer.aggregate_analysis`
(src/src/tour_gap_analysis.py lines 180-211).  The p-value keys are set only
when both pooled populations are nonempty (lines 204-209); an absent key is
`none`. -/
structure AggregateResult where
  total_songs_analyzed : Nat
  total_intra_tour_gaps : Nat
  total_cross_tour_gaps : Nat
  intra_tour : PopStats
  cross_tour : PopStats
  song_comparisons : List GapComparison
  ttest_pvalue : Option ℚ
  mannwhitney_pvalue : Option ℚ
  deriving DecidableEq

/-- The pooling loop of `TourGapAnalyzer.aggregate_analysis`
(src/src/tour_gap_analysis.py lines 166-177): walk the catalog in order, skip
songs with `times_played < min_performances`, analyze the rest, and pool the
populations of every song whose two populations are both nonempty
(`if comparison.intra_tour_gaps and comparison.cross_tour_gaps`).  Returns
(pooled intra gaps, pooled cross gaps, pooled intra days, pooled cross days,
kept comparisons). -/
def aggregateAux (b : StatsBackend) (a : TourGapAnalyzer) (m : Nat) :
    List (String × Song) →
    Option (List Int × List Int × List Int × List Int × List GapComparison)
  | [] => some ([], [], [], [], [])
  | (name, song) :: rest =>
    if song.times_played < m then aggregateAux b a m rest
    else do
      let c ← analyzeSong b a name
      let (ig, cg, idy, cdy, cs) ← aggregateAux b a m rest
      if ¬c.intra_tour_gaps.isEmpty ∧ ¬c.cross_tour_gaps.isEmpty then
        some (c.intra_tour_gaps ++ ig, c.cross_tour_gaps ++ cg,
              c.intra_tour_days ++ idy, c.cross_tour_days ++ cdy, c :: cs)
      else some (ig, cg, idy, cdy, cs)

/-- `np.mean(xs) if xs else 0` and the like, as `aggregate_analysis` writes
each pooled statistic. -/
def statOrZero (f : List Int → ℚ) (xs : List Int) : ℚ :=
  if xs.isEmpty then 0 else f xs

/-- `TourGapAnalyzer.aggregate_analysis` (src/src/tour_gap_analysis.py lines
153-211).  The Python default for `min_performances` is 30. -/
def aggregateAnalysis (b : StatsBackend) (a : TourGapAnalyzer) (m : Nat) :
    Option AggregateResult := do
  let (ig, cg, idy, cdy, cs) ← aggregateAux b a m a.loader.songs
  some
    { total_songs_analyzed := cs.length,
      total_intra_tour_gaps := ig.length,
      total_cross_tour_gaps := cg.length,
      intra_tour :=
        { mean_gap_shows := statOrZero b.mean ig,
          median_gap_shows := statOrZero b.median ig,
          std_gap_shows := statOrZero b.std ig,
          mean_gap_days := statOrZero b.mean idy,
          median_gap_days := statOrZero b.median idy },
      cross_tour :=
        { mean_gap_shows := statOrZero b.mean cg,
          median_gap_shows := statOrZero b.median cg,
          std_gap_shows := statOrZero b.std cg,
          mean_gap_days := statOrZero b.mean cdy,
          median_gap_days := statOrZero b.median cdy },
      song_comparisons := cs,
      ttest_pvalue :=
        if ¬ig.isEmpty ∧ ¬cg.isEmpty then some (b.ttest_ind ig cg) else none,
      mannwhitney_pvalue :=
        if ¬ig.isEmpty ∧ ¬cg.isEmpty then some (b.mannwhitneyu ig cg) else none }

/-- One observation appended by `TourGapAnalyzer.analyze_repeat_patterns`
(src/src/tour_gap_analysis.py lines 260-271): a song name, whether it recurred
within the lookahead window, and at which show offset if so. -/
structure RepeatObs where
  song : String
  repeated : Bool
  gap : Option Nat
  deriving DecidableEq

/-- Whether a show's setlist contains a song of the given name. -/
def songInShow (s : Show) (name : String) : Bool :=
  s.songs.any (fun p => p.song_name == name)

/-- The lookahead loop of `analyze_repeat_patterns`
(src/src/tour_gap_analysis.py lines 241-258): try offsets `j0, j0+1, ...`
(`rem` of them); stop with `none` as soon as `i + j` runs past the end of the
show list, with `some j` at the first show containing the song. -/
def findRepeatFrom (shows : List Show) (i : Nat) (name : String) : Nat → Nat → Option Nat
  | _, 0 => none
  | j, rem + 1 =>
    if shows.length ≤ i + j then none
    else if songInShow (shows.getD (i + j) dShow) name then some j
    else findRepeatFrom shows i name (j + 1) rem

/-- The full lookahead for one (show, song) occurrence: offsets `1..n`. -/
def findRepeat (shows : List Show) (i : Nat) (name : String) (n : Nat) : Option Nat :=
  findRepeatFrom shows i name 1 n

/-- The `is_tour_start` flag of `analyze_repeat_patterns`
(src/src/tour_gap_analysis.py lines 227-231): false at the first show,
otherwise whether the predecessor is more than `threshold` days back. -/
def isTourStart (shows : List Show) (threshold : Int) (i : Nat) : Bool :=
  if i = 0 then false
  else decide (threshold < dateAt shows i - dateAt shows (i - 1))

/-- The observations recorded for the songs of `shows[i]`
(src/src/tour_gap_analysis.py lines 233-258), in setlist order. -/
def obsForShow (shows : List Show) (n : Nat) (i : Nat) : List RepeatObs :=
  (shows.getD i dShow).songs.map (fun p =>
    let r := findRepeat shows i p.song_name n
    { song := p.song_name, repeated := r.isSome, gap := r })

/-- The show loop of `analyze_repeat_patterns` from index `i` on, with `rem`
shows left to visit (src/src/tour_gap_analysis.py lines 225-271), returning
the (`repeats_same_tour`, `repeats_cross_tour`) buckets. -/
def repeatObsAux (shows : List Show) (threshold : Int) (n : Nat) : Nat → Nat → List RepeatObs × List RepeatObs
  | _, 0 => ([], [])
  | i, rem + 1 =>
    let obs := obsForShow shows n i
    let rest := repeatObsAux shows threshold n (i + 1) rem
    if isTourStart shows threshold i then (rest.1, obs ++ rest.2)
    else (obs ++ rest.1, rest.2)

/-- The observation-collection phase of
`TourGapAnalyzer.analyze_repeat_patterns` (src/src/tour_gap_analysis.py lines
213-271): the (`repeats_same_tour`, `repeats_cross_tour`) observation lists,
visiting every show index once.  The probability/chi-square summary computed
from them (lines 273-301) is pure pandas/scipy aggregation of these lists and
is not needed by the claims. -/
def repeatObservations (a : TourGapAnalyzer) (n : Nat) : List RepeatObs × List RepeatObs :=
  repeatObsAux a.loader.shows a.break_threshold n 0 a.loader.shows.length

/-- The interpretation string of `calculate_optimal_penalty_adjustment`
(src/src/tour_gap_analysis.py lines 334-356): one of three fixed texts, each
interpolating the (one) formatted `gap_ratio`; modelled as the branch tag
together with that ratio. -/
inductive PenaltyInterpretation where
  | crossLonger (gap_ratio : ℚ)
  | crossShorter (gap_ratio : ℚ)
  | neutral (gap_ratio : ℚ)
  deriving DecidableEq

/-- The dict returned by `calculate_optimal_penalty_adjustment`
(src/src/tour_gap_analysis.py lines 326-332). -/
structure PenaltyRecommendation where
  intra_tour_mean_gap : ℚ
  cross_tour_mean_gap : ℚ
  gap_ratio : ℚ
  interpretation : PenaltyInterpretation
  recommended_adjustment : ℚ
  deriving DecidableEq

/-- `TourGapAnalyzer.calculate_optimal_penalty_adjustment`
(src/src/tour_gap_analysis.py lines 303-358) after its first two statements:
the source first extracts `intra_mean = agg['intra_tour']['mean_gap_shows']`
and `cross_mean = agg['cross_tour']['mean_gap_shows']` from
`aggregate_analysis()` and from there on is a function of those two means,
embedded here. -/
def calculateOptimalPenaltyAdjustment (intra_mean cross_mean : ℚ) :
    PenaltyRecommendation :=
  let gap_ratio := if 0 < intra_mean then cross_mean / intra_mean else 1
  if 1.2 < gap_ratio then
    { intra_tour_mean_gap := intra_mean, cross_tour_mean_gap := cross_mean,
      gap_ratio := gap_ratio,
      interpretation := PenaltyInterpretation.crossLonger gap_ratio,
      recommended_adjustment := 1 / gap_ratio }
  else if gap_ratio < 0.8 then
    { intra_tour_mean_gap := intra_mean, cross_tour_mean_gap := cross_mean,
      gap_ratio := gap_ratio,
      interpretation := PenaltyInterpretation.crossShorter gap_ratio,
      recommended_adjustment := 1 / gap_ratio }
  else
    { intra_tour_mean_gap := intra_mean, cross_tour_mean_gap := cross_mean,
      gap_ratio := gap_ratio,
      interpretation := PenaltyInterpretation.neutral gap_ratio,
      recommended_adjustment := 1 }

/-! ### Spec-side definitions

Definitions written from the spec's words, for comparison with the embedded
code (refinement claims): the claimed pooled-population sizes of §4.4 / §8,
and the "maximal contiguous run" of §4.1. -/

/-- Spec-side (spec.md §4.4/§8): the claimed pooled population sizes — the sums
of the per-song intra- and cross-tour population sizes over exactly the songs that
pass both the minimum-performance filter and the ≥5-observations-per-population
filter. -/
def specPooledSizesGE5 (b : StatsBackend) (a : TourGapAnalyzer) (m : Nat) :
    List (String × Song) → Option (Nat × Nat)
  | [] => some (0, 0)
  | (name, song) :: rest =>
    if song.times_played < m then specPooledSizesGE5 b a m rest
    else do
      let c ← analyzeSong b a name
      let (x, y) ← specPooledSizesGE5 b a m rest
      if 5 ≤ c.intra_tour_gaps.length ∧ 5 ≤ c.cross_tour_gaps.length then
        some (c.intra_tour_gaps.length + x, c.cross_tour_gaps.length + y)
      else some (x, y)

/-- Spec-side, amended: the pooled population sizes as sums over the songs that
pass the minimum-performance filter and have both populations nonempty (the
filter the code actually applies in `aggregate_analysis`). -/
def specPooledSizesNonempty (b : StatsBackend) (a : TourGapAnalyzer) (m : Nat) :
    List (String × Song) → Option (Nat × Nat)
  | [] => some (0, 0)
  | (name, song) :: rest =>
    if song.times_played < m then specPooledSizesNonempty b a m rest
    else do
      let c ← analyzeSong b a name
      let (x, y) ← specPooledSizesNonempty b a m rest
      if ¬c.intra_tour_gaps.isEmpty ∧ ¬c.cross_tour_gaps.isEmpty then
        some (c.intra_tour_gaps.length + x, c.cross_tour_gaps.length + y)
      else some (x, y)

/-- The segmentation's break test at position `i` (intended for
`1 ≤ i < shows.length`): shows `i - 1` and `i` are more than `threshold` days
apart. -/
def breakAt (shows : List Show) (threshold : Int) (i : Nat) : Prop :=
  threshold < dateAt shows i - dateAt shows (i - 1)

instance (shows : List Show) (threshold : Int) (i : Nat) :
    Decidable (breakAt shows threshold i) :=
  inferInstanceAs (Decidable (threshold < dateAt shows i - dateAt shows (i - 1)))

/-- Spec-side (spec.md §4.1): `a` is the first index of the maximal contiguous
run of shows, under the segmentation's threshold test, that ends at index `e`:
no break strictly inside `(a, e]`, and `a` is itself a run boundary (the start
of the data or a break point). -/
def IsRunEndingAt (shows : List Show) (threshold : Int) (e a : Nat) : Prop :=
  a ≤ e ∧ (a = 0 ∨ breakAt shows threshold a) ∧
    ∀ k, a < k → k ≤ e → ¬breakAt shows threshold k

/-- Spec-side (spec.md §4.1): `e` is the last index of the maximal contiguous
run of shows that starts at index `s`: no break strictly inside `(s, e]`, and
`e` is itself a run boundary (the end of the data or the show before a break
point). -/
def IsRunStartingAt (shows : List Show) (threshold : Int) (s e : Nat) : Prop :=
  s ≤ e ∧ (e = shows.length - 1 ∨ breakAt shows threshold (e + 1)) ∧
    ∀ k, s < k → k ≤ e → ¬breakAt shows threshold k

/-- Proof helper: the start of the run containing index `i` (the greatest run
boundary at or below `i`). -/
def segStart (shows : List Show) (threshold : Int) : Nat → Nat
  | 0 => 0
  | i + 1 => if breakAt shows threshold (i + 1) then i + 1 else segStart shows threshold i

/-- Proof helper: the end of the run containing index `i`, scanning at most
`rem` indices forward. -/
def segEndAux (shows : List Show) (threshold : Int) : Nat → Nat → Nat
  | i, 0 => i
  | i, rem + 1 =>
    if breakAt shows threshold (i + 1) then i else segEndAux shows threshold (i + 1) rem

/-- Proof helper: the end of the run containing index `i` (the least run
boundary at or above `i`). -/
def segEnd (shows : List Show) (threshold : Int) (i : Nat) : Nat :=
  segEndAux shows threshold i (shows.length - 1 - i)

/-- The `TourBreak` the segmentation emits at break position `i`. -/
def mkBreak (shows : List Show) (threshold : Int) (i : Nat) : TourBreak :=
  { end_show := shows.getD (i - 1) dShow,
    start_show := shows.getD i dShow,
    days_between := dateAt shows i - dateAt shows (i - 1),
    shows_in_previous_tour := countConsecutiveShowsBefore shows threshold (i - 1),
    shows_in_next_tour := countConsecutiveShowsAfter shows threshold i }

/-! ### Concrete loaders for witnesses and counterexamples -/

/-- A show with the given id, date and setlist (each performance carries the
API gap value 1). -/
def mkShow (sid : Nat) (d : Int) (names : List String) : Show :=
  { show_id := sid, show_date := d, tour_id := none, tour_name := none,
    songs := names.map (fun nm =>
      { song_name := nm, show_id := sid, show_date := d, gap := 1 }) }

/-- The distinct song names of a show list in order of first occurrence (the
key order of the catalog dict built by `_build_songs`). -/
def songNames (shows : List Show) : List String :=
  (shows.flatMap (fun s => s.songs.map (fun p => p.song_name))).foldl
    (fun acc t => if t ∈ acc then acc else acc ++ [t]) []

/-- All performances of a song, in chronological show order (`_build_songs`). -/
def performancesOf (shows : List Show) (name : String) : List SongPerformance :=
  shows.flatMap (fun s => s.songs.filter (fun p => p.song_name == name))

/-- A loader state as `load_all_data` produces it from an already date-sorted
show list: the catalog as `_build_songs` builds it, the breaks as
`_identify_tours_and_breaks` (threshold 14) emits them. -/
def buildLoader (shows : List Show) : PhishDataLoader :=
  { shows := shows,
    songs := (songNames shows).map (fun nm =>
      let perfs := performancesOf shows nm
      (nm, { name := nm, times_played := perfs.length, performances := perfs })),
    tour_breaks := (identifyToursAndBreaks shows 14).2 }

/-- A backend with constant test p-values of 0, standing in for scipy (which
on sub-floor populations returns values generally different from 1, e.g.
`mannwhitneyu([1,2,3], [25,30,30], alternative='two-sided')` has p = 0.1). -/
def exBackend : StatsBackend :=
  { mean := fun _ => 0, median := fun _ => 0, std := fun _ => 0,
    ttest_ind := fun _ _ => 0, mannwhitneyu := fun _ _ => 0 }

/-- Shows for C1: three shows 10 days apart each (no tour break anywhere), with
song "X" at the first and last show — its two performances are 20 > 14 days
apart.  Song "Y" is played exactly once. -/
def exShows1 : List Show := [mkShow 1 0 ["X"], mkShow 2 10 ["Y"], mkShow 3 20 ["X"]]

def exLoader1 : PhishDataLoader := buildLoader exShows1

def exAnalyzer1 : TourGapAnalyzer := { loader := exLoader1, break_threshold := 14 }

/-- Shows for C2/C3: song "X" at three shows, yielding one intra-tour gap
(5 days) and one cross-tour gap (25 days). -/
def exShows2 : List Show := [mkShow 1 0 ["X"], mkShow 2 5 ["X"], mkShow 3 30 ["X"]]

def exAnalyzer2 : TourGapAnalyzer := { loader := buildLoader exShows2, break_threshold := 14 }

/-- Two shows 15 days apart (threshold 14 ⇒ one break). -/
def exShows5a : List Show := [mkShow 1 0 [], mkShow 2 15 []]

/-- Two shows 14 days apart (threshold 14 ⇒ no break). -/
def exShows5b : List Show := [mkShow 1 0 [], mkShow 2 14 []]

/-- A single show. -/
def exShows5c : List Show := [mkShow 1 0 []]

/-- Shows for C7: a two-show opening run, then a 18-day break, then a three-show
run; song "R" is played at the tour-start show (index 2) and two shows later,
song "Q" at index 2 only. -/
def exShows7 : List Show :=
  [mkShow 1 0 [], mkShow 2 1 [], mkShow 3 19 ["R", "Q"], mkShow 4 20 [], mkShow 5 21 ["R"]]

def exAnalyzer7 : TourGapAnalyzer := { loader := buildLoader exShows7, break_threshold := 14 }

/-- Shows for C8: eleven shows, songs "A" and "B" both played at every show, so
each song has five intra-tour gaps (1 day) and five cross-tour gaps
(25 or 30 days).  In `exShows8b` the first setlist is reversed, so the catalog
dict lists "B" before "A". -/
def exDays8 : List Int := [0, 1, 2, 3, 4, 5, 30, 60, 90, 120, 150]

def exShows8a : List Show :=
  (List.range exDays8.length).map (fun i => mkShow (i + 1) (exDays8.getD i 0) ["A", "B"])

def exShows8b : List Show :=
  mkShow 1 0 ["B", "A"] ::
    (List.range (exDays8.length - 1)).map
      (fun i => mkShow (i + 2) (exDays8.getD (i + 1) 0) ["A", "B"])

def exAnalyzer8a : TourGapAnalyzer := { loader := buildLoader exShows8a, break_threshold := 14 }

def exAnalyzer8b : TourGapAnalyzer := { loader := buildLoader exShows8b, break_threshold := 14 }

end Phish
namespace Phish

lemma computeStats_mk_empty (b : StatsBackend) (s : String) :
    computeStats b (mkGapComparison s [] [] [] []) = mkGapComparison s [] [] [] [] := by
  simp [computeStats, mkGapComparison]

lemma insertionSort_singleton {α : Type} (r : α → α → Prop) [DecidableRel r] (a : α) :
    List.insertionSort r [a] = [a] := rfl

/-- C10: two analyzers over the same loader that differ only in their
configured `tour_break_threshold_days` return identical `GapComparison`s from
`analyze_song`, for every song and backend: the classification always goes
through `is_tour_break_between`'s fixed default of 14 days and never reads the
analyzer's threshold. -/
theorem C10_threshold_noninterference (b : StatsBackend) (l : PhishDataLoader)
    (t1 t2 : Int) (song_name : String) :
    analyzeSong b { loader := l, break_threshold := t1 } song_name =
      analyzeSong b { loader := l, break_threshold := t2 } song_name := rfl

/-- C6: for a song identity that is not in the catalog, or whose performance
list has fewer than two entries, `analyze_song` returns (without failing) the
`GapComparison` with two empty populations and all statistics at their
defaults (means, medians, stds 0 and both p-values 1). -/
theorem C6_insufficient_data (b : StatsBackend) (a : TourGapAnalyzer) (s : String) :
    (a.loader.songs.find? (fun kv => kv.1 == s) = none →
      analyzeSong b a s = some (mkGapComparison s [] [] [] [])) ∧
    (∀ k song, a.loader.songs.find? (fun kv => kv.1 == s) = some (k, song) →
      song.performances.length < 2 →
      analyzeSong b a s = some (mkGapComparison s [] [] [] [])) := by
  constructor
  · intro h
    simp [analyzeSong, getPerformancesWithContext, h, Option.bind, computeStats_mk_empty]
  · intro k song hfind hlen
    simp only [analyzeSong, getPerformancesWithContext, hfind]
    cases hp : song.performances with
    | nil =>
      simp [sortPerfsByDate, contextsAux, Option.bind, computeStats_mk_empty]
    | cons p rest =>
      cases rest with
      | nil =>
        simp [sortPerfsByDate, insertionSort_singleton, contextsAux, Option.bind,
          computeStats_mk_empty]
      | cons q r => rw [hp] at hlen; simp at hlen; omega

end Phish
namespace Phish

/-- The catalog entry `buildLoader` creates for song "Y" of `exShows1`. -/
def exSongY : Song :=
  { name := "Y", times_played := 1,
    performances := [{ song_name := "Y", show_id := 2, show_date := 10, gap := 1 }] }

/-- Witness for C6: an unknown song and a once-played song, on a concrete
loader. -/
theorem C6_witness :
    analyzeSong exBackend exAnalyzer1 "ZZZ" = some (mkGapComparison "ZZZ" [] [] [] []) ∧
    analyzeSong exBackend exAnalyzer1 "Y" = some (mkGapComparison "Y" [] [] [] []) :=
  ⟨(C6_insufficient_data exBackend exAnalyzer1 "ZZZ").1 (by decide),
   (C6_insufficient_data exBackend exAnalyzer1 "Y").2 "Y" exSongY (by decide) (by decide)⟩

lemma calcOPA_eq (im cm : ℚ) :
    calculateOptimalPenaltyAdjustment im cm =
      { intra_tour_mean_gap := im, cross_tour_mean_gap := cm,
        gap_ratio := if 0 < im then cm / im else 1,
        interpretation :=
          if 1.2 < (if 0 < im then cm / im else 1) then
            PenaltyInterpretation.crossLonger (if 0 < im then cm / im else 1)
          else if (if 0 < im then cm / im else 1) < 0.8 then
            PenaltyInterpretation.crossShorter (if 0 < im then cm / im else 1)
          else PenaltyInterpretation.neutral (if 0 < im then cm / im else 1),
        recommended_adjustment :=
          if 1.2 < (if 0 < im then cm / im else 1) then
            1 / (if 0 < im then cm / im else 1)
          else if (if 0 < im then cm / im else 1) < 0.8 then
            1 / (if 0 < im then cm / im else 1)
          else 1 } := by
  simp only [calculateOptimalPenaltyAdjustment]
  split_ifs <;> rfl

/-- C4: the penalty recommender is a pure deterministic function of the two
aggregate mean show-gaps: the ratio falls back to 1 when the intra mean is 0,
each threshold branch pairs its adjustment value with its interpretation, and
on intra mean 4 / cross mean 9 it returns ratio 9/4 with adjustment 4/9 in the
crossLonger branch. -/
theorem C4_penalty_recommender (im cm : ℚ) :
    (im = 0 → (calculateOptimalPenaltyAdjustment im cm).gap_ratio = 1) ∧
    (0 < im → (calculateOptimalPenaltyAdjustment im cm).gap_ratio = cm / im) ∧
    (1.2 < (calculateOptimalPenaltyAdjustment im cm).gap_ratio →
      (calculateOptimalPenaltyAdjustment im cm).recommended_adjustment =
          1 / (calculateOptimalPenaltyAdjustment im cm).gap_ratio ∧
        (calculateOptimalPenaltyAdjustment im cm).interpretation =
          PenaltyInterpretation.crossLonger (calculateOptimalPenaltyAdjustment im cm).gap_ratio) ∧
    ((calculateOptimalPenaltyAdjustment im cm).gap_ratio < 0.8 →
      (calculateOptimalPenaltyAdjustment im cm).recommended_adjustment =
          1 / (calculateOptimalPenaltyAdjustment im cm).gap_ratio ∧
        (calculateOptimalPenaltyAdjustment im cm).interpretation =
          PenaltyInterpretation.crossShorter (calculateOptimalPenaltyAdjustment im cm).gap_ratio) ∧
    (0.8 ≤ (calculateOptimalPenaltyAdjustment im cm).gap_ratio →
      (calculateOptimalPenaltyAdjustment im cm).gap_ratio ≤ 1.2 →
      (calculateOptimalPenaltyAdjustment im cm).recommended_adjustment = 1 ∧
        (calculateOptimalPenaltyAdjustment im cm).interpretation =
          PenaltyInterpretation.neutral (calculateOptimalPenaltyAdjustment im cm).gap_ratio) ∧
    calculateOptimalPenaltyAdjustment im cm = calculateOptimalPenaltyAdjustment im cm ∧
    calculateOptimalPenaltyAdjustment 4 9 =
      { intra_tour_mean_gap := 4, cross_tour_mean_gap := 9, gap_ratio := 9 / 4,
        interpretation := PenaltyInterpretation.crossLonger (9 / 4),
        recommended_adjustment := 4 / 9 } := by
  have hconc : calculateOptimalPenaltyAdjustment 4 9 =
      { intra_tour_mean_gap := 4, cross_tour_mean_gap := 9, gap_ratio := 9 / 4,
        interpretation := PenaltyInterpretation.crossLonger (9 / 4),
        recommended_adjustment := 4 / 9 } := by
    norm_num [calculateOptimalPenaltyAdjustment]
  refine ⟨fun he => ?_, fun hp => ?_, fun hgt => ?_, fun hlt => ?_, fun hge hle => ?_,
    rfl, hconc⟩
  · simp [calcOPA_eq, he]
  · simp [calcOPA_eq, hp]
  · rw [calcOPA_eq] at hgt ⊢; dsimp only at hgt ⊢
    split_ifs at hgt ⊢ <;> exact ⟨rfl, rfl⟩
  · rw [calcOPA_eq] at hlt ⊢; dsimp only at hlt ⊢
    split_ifs at hlt ⊢ <;> first | exact ⟨rfl, rfl⟩ | linarith
  · rw [calcOPA_eq] at hge hle ⊢; dsimp only at hge hle ⊢
    split_ifs at hge hle ⊢ <;> first | exact ⟨rfl, rfl⟩ | linarith

/-- Witness for C4: the theorem applied at concrete means (0, 5) and (4, 9). -/
theorem C4_witness :
    (calculateOptimalPenaltyAdjustment 0 5).gap_ratio = 1 ∧
    (calculateOptimalPenaltyAdjustment 4 9).gap_ratio = 9 / 4 :=
  ⟨(C4_penalty_recommender 0 5).1 rfl,
   (C4_penalty_recommender 4 9).2.1 (by norm_num)⟩

lemma length_buildBreaksAux (shows : List Show) (thr : Int) :
    ∀ (walked : List Show) (i : Nat),
      (buildBreaksAux shows thr i walked).length =
        (walked.zip walked.tail).countP
          (fun pr => decide (thr < pr.2.show_date - pr.1.show_date)) := by
  intro walked
  induction walked with
  | nil => intro i; rfl
  | cons p rest ih =>
    cases rest with
    | nil => intro i; rfl
    | cons c r =>
      intro i
      simp only [buildBreaksAux, List.tail_cons, List.zip_cons_cons, List.countP_cons]
      by_cases hc : thr < c.show_date - p.show_date
      · simp [hc, ih (i + 1)]
      · simp [hc, ih (i + 1)]

/-- C5: tour segmentation emits one `TourBreak` per adjacent pair of shows
strictly more than `threshold` days apart (the count over adjacent pairs
equals the number of emitted breaks); with threshold 14 two shows 15 days
apart yield exactly one break, 14 days apart none; fewer than two shows yield
no tours and no breaks. -/
theorem C5_tour_segmentation (shows : List Show) (threshold : Int) :
    (shows.length < 2 → identifyToursAndBreaks shows threshold = ([], [])) ∧
    (2 ≤ shows.length →
      (identifyToursAndBreaks shows threshold).2.length =
        (shows.zip shows.tail).countP
          (fun pr => decide (threshold < pr.2.show_date - pr.1.show_date))) ∧
    (identifyToursAndBreaks exShows5a 14).2.length = 1 ∧
    (identifyToursAndBreaks exShows5b 14).2 = [] ∧
    identifyToursAndBreaks exShows5c 14 = ([], []) ∧
    identifyToursAndBreaks ([] : List Show) 14 = ([], []) := by
  refine ⟨?_, ?_, by decide, by decide, by decide, by decide⟩
  · intro h; simp [identifyToursAndBreaks, h]
  · intro h
    simp only [identifyToursAndBreaks, if_neg (by omega : ¬shows.length < 2)]
    exact length_buildBreaksAux shows threshold shows 1

/-- Witness for C5: the break-count equality and the degenerate case, on
concrete show lists. -/
theorem C5_witness :
    (identifyToursAndBreaks exShows5a 14).2.length =
      ((exShows5a.zip exShows5a.tail).countP
        (fun pr => decide ((14 : Int) < pr.2.show_date - pr.1.show_date))) ∧
    identifyToursAndBreaks exShows5c 14 = ([], []) :=
  ⟨(C5_tour_segmentation exShows5a 14).2.1 (by decide),
   (C5_tour_segmentation exShows5c 14).1 (by decide)⟩

end Phish
namespace Phish

lemma computeStats_populations (b : StatsBackend) (c : GapComparison) :
    (computeStats b c).intra_tour_gaps = c.intra_tour_gaps ∧
    (computeStats b c).cross_tour_gaps = c.cross_tour_gaps := by
  simp only [computeStats]
  split_ifs <;> exact ⟨rfl, rfl⟩

lemma computeStats_pvalues_small (b : StatsBackend) (c : GapComparison)
    (h : c.intra_tour_gaps.length < 5 ∨ c.cross_tour_gaps.length < 5) :
    (computeStats b c).ttest_pvalue = c.ttest_pvalue ∧
    (computeStats b c).mannwhitney_pvalue = c.mannwhitney_pvalue := by
  have hcond : ¬(5 ≤ c.intra_tour_gaps.length ∧ 5 ≤ c.cross_tour_gaps.length) := by omega
  simp only [computeStats, if_neg hcond]
  split_ifs <;> exact ⟨rfl, rfl⟩

/-- C3 (amended): per song, the two significance tests run only when both
populations have at least 5 observations, and below that floor both p-values
are exactly the neutral 1; but for the pooled populations of
`aggregate_analysis` the tests run whenever both pools are merely nonempty
(no 5-observation floor), and with an empty pool the p-value keys are absent
(`none`) rather than 1. -/
theorem C3_pvalue_floor :
    (∀ (b : StatsBackend) (a : TourGapAnalyzer) (s : String) (c : GapComparison),
      analyzeSong b a s = some c →
      (c.intra_tour_gaps.length < 5 ∨ c.cross_tour_gaps.length < 5) →
      c.ttest_pvalue = 1 ∧ c.mannwhitney_pvalue = 1) ∧
    (∀ (b : StatsBackend) (a : TourGapAnalyzer) (m : Nat) (r : AggregateResult),
      aggregateAnalysis b a m = some r →
      (r.ttest_pvalue.isSome ↔ 0 < r.total_intra_tour_gaps ∧ 0 < r.total_cross_tour_gaps) ∧
      (r.mannwhitney_pvalue.isSome ↔
        0 < r.total_intra_tour_gaps ∧ 0 < r.total_cross_tour_gaps)) := by
  constructor
  · intro b a s c h hsmall
    cases hctx : getPerformancesWithContext a.loader s with
    | none => rw [analyzeSong, hctx] at h; simp at h
    | some ctxs =>
      rw [analyzeSong, hctx] at h
      simp only [Option.bind_eq_bind, Option.some_bind, Option.some.injEq] at h
      subst h
      rcases computeStats_populations b (mkGapComparison s _ _ _ _) with ⟨hig, hcg⟩
      rw [hig, hcg] at hsmall
      rcases computeStats_pvalues_small b _ hsmall with ⟨ht, hm⟩
      rw [ht, hm]
      exact ⟨rfl, rfl⟩
  · intro b a m r h
    cases haux : aggregateAux b a m a.loader.songs with
    | none => rw [aggregateAnalysis, haux] at h; simp at h
    | some t =>
      obtain ⟨ig, cg, idy, cdy, cs⟩ := t
      rw [aggregateAnalysis, haux] at h
      simp only [Option.bind_eq_bind, Option.some_bind, Option.some.injEq] at h
      subst h
      rcases ig with _ | ⟨x, ig⟩ <;> rcases cg with _ | ⟨y, cg⟩ <;>
        simp [List.isEmpty]

/-- The `GapComparison` that `analyze_song` returns for song "X" of
`exShows2`: one intra-tour gap and one cross-tour gap. -/
def exCompX : GapComparison := mkGapComparison "X" [1] [5] [1] [25]

/-- The dict `aggregate_analysis` returns on `exAnalyzer2` with
`min_performances = 1` and the `exBackend` routines. -/
def exAggR : AggregateResult :=
  { total_songs_analyzed := 1, total_intra_tour_gaps := 1, total_cross_tour_gaps := 1,
    intra_tour := { mean_gap_shows := 0, median_gap_shows := 0, std_gap_shows := 0,
                    mean_gap_days := 0, median_gap_days := 0 },
    cross_tour := { mean_gap_shows := 0, median_gap_shows := 0, std_gap_shows := 0,
                    mean_gap_days := 0, median_gap_days := 0 },
    song_comparisons := [exCompX], ttest_pvalue := some 0, mannwhitney_pvalue := some 0 }

/-- Witness for C3: a song with sub-floor populations keeps both neutral
p-values, and a pooled result with both pools nonempty carries computed
p-values. -/
theorem C3_witness :
    (∃ c, analyzeSong exBackend exAnalyzer2 "X" = some c ∧
      c.ttest_pvalue = 1 ∧ c.mannwhitney_pvalue = 1) ∧
    (∃ r, aggregateAnalysis exBackend exAnalyzer2 1 = some r ∧
      r.mannwhitney_pvalue.isSome) :=
  ⟨⟨exCompX, by decide,
    C3_pvalue_floor.1 exBackend exAnalyzer2 "X" exCompX (by decide) (Or.inl (by decide))⟩,
   ⟨exAggR, by decide,
    ((C3_pvalue_floor.2 exBackend exAnalyzer2 1 exAggR (by decide)).2).mpr
      ⟨by decide, by decide⟩⟩⟩

/-- Counterexample for C3 as stated: the pooled populations of
`aggregate_analysis` on `exAnalyzer2` have size 1 each — below the
5-observation floor — yet both p-value entries are present and carry the
backend's computed value 0, not the claimed neutral 1. -/
theorem C3_counterexample :
    (aggregateAnalysis exBackend exAnalyzer2 1).map
      (fun r => (r.total_intra_tour_gaps, r.total_cross_tour_gaps,
                 r.ttest_pvalue, r.mannwhitney_pvalue)) =
      some (1, 1, some 0, some 0) := by decide

end Phish
namespace Phish

lemma specNonempty_eq (b : StatsBackend) (a : TourGapAnalyzer) (m : Nat) :
    ∀ l, specPooledSizesNonempty b a m l =
      (aggregateAux b a m l).map (fun t => (t.1.length, t.2.1.length)) := by
  intro l
  induction l with
  | nil => rfl
  | cons kv rest ih =>
    obtain ⟨name, song⟩ := kv
    simp only [specPooledSizesNonempty, aggregateAux]
    split_ifs with h
    · exact ih
    · cases hA : analyzeSong b a name with
      | none => simp
      | some c =>
        simp only [Option.bind_eq_bind, Option.some_bind]
        cases hR : aggregateAux b a m rest with
        | none => rw [ih, hR]; simp
        | some t =>
          obtain ⟨ig, cg, idy, cdy, cs⟩ := t
          rw [ih, hR]
          simp only [Option.map_some, Option.some_bind]
          split_ifs with hc
          · simp [List.length_append, Nat.add_comm]
          · rfl

/-- C2 (amended): the pooled population sizes of `aggregate_analysis` equal
the sums of the per-song population sizes over the songs that pass the
minimum-performance filter and have both populations *nonempty* (not the
spec's ≥5 filter); and songs below the minimum-performance filter are
silently skipped by both `aggregate_analysis` and `analyze_all_songs`
(removing them from the catalog changes nothing). -/
theorem C2_pooled_sizes :
    (∀ (b : StatsBackend) (a : TourGapAnalyzer) (m : Nat) (r : AggregateResult),
      aggregateAnalysis b a m = some r →
      specPooledSizesNonempty b a m a.loader.songs =
        some (r.total_intra_tour_gaps, r.total_cross_tour_gaps)) ∧
    (∀ (b : StatsBackend) (a : TourGapAnalyzer) (m : Nat) (l : List (String × Song)),
      aggregateAux b a m (l.filter (fun kv => decide (m ≤ kv.2.times_played))) =
        aggregateAux b a m l ∧
      analyzeAllAux b a m (l.filter (fun kv => decide (m ≤ kv.2.times_played))) =
        analyzeAllAux b a m l) := by
  constructor
  · intro b a m r h
    cases haux : aggregateAux b a m a.loader.songs with
    | none => rw [aggregateAnalysis, haux] at h; simp at h
    | some t =>
      obtain ⟨ig, cg, idy, cdy, cs⟩ := t
      rw [aggregateAnalysis, haux] at h
      simp only [Option.bind_eq_bind, Option.some_bind, Option.some.injEq] at h
      subst h
      rw [specNonempty_eq, haux]
      rfl
  · intro b a m l
    induction l with
    | nil => exact ⟨rfl, rfl⟩
    | cons kv rest ih =>
      obtain ⟨name, song⟩ := kv
      by_cases h : song.times_played < m
      · have hf : (decide (m ≤ song.times_played)) = false := by
          simp only [decide_eq_false_iff_not]; omega
        simp only [List.filter_cons, hf, if_neg Bool.false_ne_true, aggregateAux,
          analyzeAllAux, if_pos h]
        exact ih
      · have hf : (decide (m ≤ song.times_played)) = true := by
          simp only [decide_eq_true_eq]; omega
        simp only [List.filter_cons, hf, if_pos trivial, aggregateAux, analyzeAllAux,
          if_neg h]
        rw [ih.1, ih.2]
        exact ⟨rfl, rfl⟩

/-- Witness for C2 (amended): the nonempty-filter sum on a concrete analyzer
matches the pooled totals. -/
theorem C2_witness :
    specPooledSizesNonempty exBackend exAnalyzer2 1 exAnalyzer2.loader.songs =
      some (1, 1) :=
  C2_pooled_sizes.1 exBackend exAnalyzer2 1 exAggR (by decide)

/-- Counterexample for C2 as stated: on `exAnalyzer2` the only song passes the
minimum-performance filter but fails the ≥5-observations filter, so the
claimed sum over songs passing both filters is 0 — yet the pooled populations
have size 1 each. -/
theorem C2_counterexample :
    specPooledSizesGE5 exBackend exAnalyzer2 1 exAnalyzer2.loader.songs = some (0, 0) ∧
    (aggregateAnalysis exBackend exAnalyzer2 1).map
      (fun r => (r.total_intra_tour_gaps, r.total_cross_tour_gaps)) = some (1, 1) :=
  ⟨by decide, by decide⟩

end Phish
namespace Phish

lemma contextsAux_mem_crosses (l : PhishDataLoader) :
    ∀ (prevOpt : Option SongPerformance) (perfs : List SongPerformance)
      (ctxs : List PerfContext),
      contextsAux l prevOpt perfs = some ctxs →
      ∀ c ∈ ctxs, ∀ prev, c.prev_performance = some prev →
        ∃ s1 s2, getShowById l prev.show_id = some s1 ∧
          getShowById l c.performance.show_id = some s2 ∧
          (c.crosses_tour_break = true ↔ (14 : Int) < |s2.show_date - s1.show_date|) := by
  intro prevOpt perfs
  induction perfs generalizing prevOpt with
  | nil =>
    intro ctxs h c hc
    simp only [contextsAux, Option.some.injEq] at h
    subst h
    simp at hc
  | cons p rest ih =>
    intro ctxs h c hc prev hprev
    cases prevOpt with
    | none =>
      simp only [contextsAux, Option.bind_eq_bind, Option.some_bind] at h
      cases htail : contextsAux l (some p) rest with
      | none => rw [htail] at h; simp at h
      | some tail =>
        rw [htail] at h
        simp only [Option.some_bind, Option.some.injEq] at h
        subst h
        rcases List.mem_cons.mp hc with rfl | htl
        · simp at hprev
        · exact ih (some p) tail htail c htl prev hprev
    | some p0 =>
      simp only [contextsAux, Option.bind_eq_bind] at h
      cases h1 : getShowById l p0.show_id with
      | none => rw [h1] at h; simp at h
      | some s1 =>
        rw [h1] at h
        cases h2 : getShowById l p.show_id with
        | none => rw [h2] at h; simp at h
        | some s2 =>
          rw [h2] at h
          cases htail : contextsAux l (some p) rest with
          | none => rw [htail] at h; simp at h
          | some tail =>
            rw [htail] at h
            simp only [Option.some_bind, Option.some.injEq] at h
            subst h
            rcases List.mem_cons.mp hc with rfl | htl
            · simp only [Option.some.injEq] at hprev
              subst hprev
              exact ⟨s1, s2, h1, h2, by simp [isTourBreakBetween]⟩
            · exact ih (some p) tail htail c htl prev hprev

/-- C1 (amended): `get_performances_with_context` classifies a consecutive
pair of performances as crossing a tour break exactly when the two
performances' shows are strictly more than 14 days apart
(`is_tour_break_between`'s fixed default), independent of the recorded
`tour_breaks`. -/
theorem C1_classification (l : PhishDataLoader) (s : String) (ctxs : List PerfContext)
    (h : getPerformancesWithContext l s = some ctxs) :
    ∀ c ∈ ctxs, ∀ prev, c.prev_performance = some prev →
      ∃ s1 s2, getShowById l prev.show_id = some s1 ∧
        getShowById l c.performance.show_id = some s2 ∧
        (c.crosses_tour_break = true ↔ (14 : Int) < |s2.show_date - s1.show_date|) := by
  rw [getPerformancesWithContext] at h
  cases hf : l.songs.find? (fun kv => kv.1 == s) with
  | none =>
    rw [hf] at h
    simp only [Option.some.injEq] at h
    subst h
    intro c hc
    simp at hc
  | some kv =>
    obtain ⟨k, song⟩ := kv
    rw [hf] at h
    exact contextsAux_mem_crosses l none _ ctxs h

/-- The first context `get_performances_with_context` builds for song "X" of
`exLoader1`. -/
def exCtxX0 : PerfContext :=
  { performance := { song_name := "X", show_id := 1, show_date := 0, gap := 1 },
    prev_performance := none, gap_shows := 0, gap_days := 0, crosses_tour_break := false,
    tour_break_days := 0, show_index := 0 }

/-- The second context `get_performances_with_context` builds for song "X" of
`exLoader1`: classified as crossing a tour break although `exLoader1` records
no `TourBreak` at all. -/
def exCtxX1 : PerfContext :=
  { performance := { song_name := "X", show_id := 3, show_date := 20, gap := 1 },
    prev_performance := some { song_name := "X", show_id := 1, show_date := 0, gap := 1 },
    gap_shows := 1, gap_days := 20, crosses_tour_break := true, tour_break_days := 20,
    show_index := 2 }

/-- Witness for C1 (amended): the classification equivalence at the concrete
pair of "X" performances of `exLoader1`. -/
theorem C1_witness :
    ∃ s1 s2, getShowById exLoader1 1 = some s1 ∧ getShowById exLoader1 3 = some s2 ∧
      (exCtxX1.crosses_tour_break = true ↔ (14 : Int) < |s2.show_date - s1.show_date|) :=
  C1_classification exLoader1 "X" [exCtxX0, exCtxX1] (by decide) exCtxX1 (by decide)
    { song_name := "X", show_id := 1, show_date := 0, gap := 1 } (by decide)

/-- Counterexample for C1 as stated: `exLoader1`'s shows are 10 days apart
each, so the segmentation records no `TourBreak` whatever (first two
conjuncts) and hence no break boundary falls between the two "X"
performances; the claim then requires the pair (day-gap 20 > 14) to be
intra-tour, but `analyze_song` classifies it cross-tour. -/
theorem C1_counterexample :
    (identifyToursAndBreaks exShows1 14).2 = [] ∧
    exLoader1.tour_breaks = [] ∧
    (analyzeSong exBackend exAnalyzer1 "X").map
      (fun c => (c.intra_tour_gaps.length, c.cross_tour_gaps.length)) = some (0, 1) :=
  ⟨by decide, by decide, by decide⟩

end Phish
namespace Phish

/-- C8 (amended): `analyze_all_songs` returns the qualifying comparisons
sorted ascending by Mann-Whitney p-value by a stable sort of the
catalog-order list: the output is a permutation of the qualifying list and is
sorted, but ties keep catalog (processing) order rather than being broken by
song identity. -/
theorem C8_ranking (b : StatsBackend) (a : TourGapAnalyzer) (m : Nat)
    (res : List GapComparison) (h : analyzeAllSongs b a m = some res) :
    res.Sorted (fun x y => x.mannwhitney_pvalue ≤ y.mannwhitney_pvalue) ∧
    ∃ raw, analyzeAllAux b a m a.loader.songs = some raw ∧
      res = List.insertionSort (fun x y => x.mannwhitney_pvalue ≤ y.mannwhitney_pvalue) raw ∧
      res.Perm raw := by
  cases haux : analyzeAllAux b a m a.loader.songs with
  | none => rw [analyzeAllSongs, haux] at h; simp at h
  | some raw =>
    rw [analyzeAllSongs, haux] at h
    simp only [Option.bind_eq_bind, Option.some_bind, Option.some.injEq] at h
    subst h
    haveI : IsTotal GapComparison (fun x y => x.mannwhitney_pvalue ≤ y.mannwhitney_pvalue) :=
      ⟨fun x y => le_total _ _⟩
    haveI : IsTrans GapComparison (fun x y => x.mannwhitney_pvalue ≤ y.mannwhitney_pvalue) :=
      ⟨fun _ _ _ hxy hyz => le_trans hxy hyz⟩
    exact ⟨List.sorted_insertionSort _ raw, raw, rfl, rfl, List.perm_insertionSort _ raw⟩

/-- The comparison `analyze_song` produces for song "A" of `exShows8a`. -/
def exCompA : GapComparison :=
  { song_name := "A", intra_tour_gaps := [1, 1, 1, 1, 1], intra_tour_days := [1, 1, 1, 1, 1],
    cross_tour_gaps := [1, 1, 1, 1, 1], cross_tour_days := [25, 30, 30, 30, 30],
    intra_mean_gap := 0, intra_median_gap := 0, intra_std_gap := 0,
    cross_mean_gap := 0, cross_median_gap := 0, cross_std_gap := 0,
    ttest_pvalue := 0, mannwhitney_pvalue := 0 }

/-- The comparison `analyze_song` produces for song "B" of `exShows8a`. -/
def exCompB : GapComparison :=
  { song_name := "B", intra_tour_gaps := [1, 1, 1, 1, 1], intra_tour_days := [1, 1, 1, 1, 1],
    cross_tour_gaps := [1, 1, 1, 1, 1], cross_tour_days := [25, 30, 30, 30, 30],
    intra_mean_gap := 0, intra_median_gap := 0, intra_std_gap := 0,
    cross_mean_gap := 0, cross_median_gap := 0, cross_std_gap := 0,
    ttest_pvalue := 0, mannwhitney_pvalue := 0 }

/-- Witness for C8 (amended): the concrete ranking on `exAnalyzer8a` is
sorted by Mann-Whitney p-value. -/
theorem C8_witness :
    ([exCompA, exCompB] : List GapComparison).Sorted
      (fun x y => x.mannwhitney_pvalue ≤ y.mannwhitney_pvalue) :=
  (C8_ranking exBackend exAnalyzer8a 1 [exCompA, exCompB] (by decide)).1

/-- Counterexample for C8 as stated: the two catalogs hold the same songs with
identical per-song comparisons and tied p-values, but listing "B" first in
the catalog reverses the ranking — processing order does affect the output,
and ties are not broken by song identity ("B" precedes "A"). -/
theorem C8_counterexample :
    (analyzeAllSongs exBackend exAnalyzer8a 1).map
      (fun l => l.map (fun c => c.song_name)) = some ["A", "B"] ∧
    (analyzeAllSongs exBackend exAnalyzer8b 1).map
      (fun l => l.map (fun c => c.song_name)) = some ["B", "A"] ∧
    analyzeSong exBackend exAnalyzer8a "A" = analyzeSong exBackend exAnalyzer8b "A" ∧
    analyzeSong exBackend exAnalyzer8a "B" = analyzeSong exBackend exAnalyzer8b "B" ∧
    (analyzeAllSongs exBackend exAnalyzer8a 1).map
      (fun l => l.map (fun c => c.mannwhitney_pvalue)) = some [0, 0] ∧
    (analyzeAllSongs exBackend exAnalyzer8b 1).map
      (fun l => l.map (fun c => c.mannwhitney_pvalue)) = some [0, 0] :=
  ⟨by decide, by decide, by decide, by decide, by decide, by decide⟩

end Phish
namespace Phish

lemma findRepeatFrom_eq_some (shows : List Show) (i : Nat) (name : String) :
    ∀ (rem j0 j : Nat), findRepeatFrom shows i name j0 rem = some j ↔
      (j0 ≤ j ∧ j < j0 + rem ∧ i + j < shows.length ∧
       songInShow (shows.getD (i + j) dShow) name = true ∧
       ∀ k, j0 ≤ k → k < j → songInShow (shows.getD (i + k) dShow) name = false) := by
  intro rem
  induction rem with
  | zero =>
    intro j0 j
    simp only [findRepeatFrom]
    constructor
    · intro h; cases h
    · rintro ⟨h1, h2, -⟩; omega
  | succ d ih =>
    intro j0 j
    simp only [findRepeatFrom]
    split_ifs with hlen hsong
    · constructor
      · intro h; cases h
      · rintro ⟨h1, -, h3, -⟩; omega
    · constructor
      · intro h
        injection h with h
        subst h
        exact ⟨le_refl j0, by omega, by omega, hsong, fun k hk1 hk2 => by omega⟩
      · rintro ⟨h1, -, -, h4, h5⟩
        by_cases hj : j = j0
        · rw [hj]
        · have := h5 j0 le_rfl (by omega)
          rw [hsong] at this
          cases this
    · rw [ih (j0 + 1) j]
      have hs : songInShow (shows.getD (i + j0) dShow) name = false :=
        Bool.not_eq_true _ ▸ by simpa using hsong
      constructor
      · rintro ⟨h1, h2, h3, h4, h5⟩
        refine ⟨by omega, by omega, h3, h4, fun k hk1 hk2 => ?_⟩
        by_cases hk : k = j0
        · rw [hk]; exact hs
        · exact h5 k (by omega) hk2
      · rintro ⟨h1, h2, h3, h4, h5⟩
        have hj : j ≠ j0 := by
          intro hj; rw [hj] at h4; rw [hs] at h4; cases h4
        exact ⟨by omega, by omega, h3, h4, fun k hk1 hk2 => h5 k (by omega) hk2⟩

lemma findRepeat_eq_some (shows : List Show) (i : Nat) (name : String) (n j : Nat) :
    findRepeat shows i name n = some j ↔
      (1 ≤ j ∧ j ≤ n ∧ i + j < shows.length ∧
       songInShow (shows.getD (i + j) dShow) name = true ∧
       ∀ k, 1 ≤ k → k < j → songInShow (shows.getD (i + k) dShow) name = false) := by
  rw [findRepeat, findRepeatFrom_eq_some]
  constructor
  · rintro ⟨h1, h2, h3, h4, h5⟩; exact ⟨h1, by omega, h3, h4, h5⟩
  · rintro ⟨h1, h2, h3, h4, h5⟩; exact ⟨h1, by omega, h3, h4, h5⟩

lemma repeatObsAux_eq (shows : List Show) (threshold : Int) (n : Nat) :
    ∀ (rem i : Nat),
      repeatObsAux shows threshold n i rem =
        (((List.range' i rem).filter
            (fun k => !isTourStart shows threshold k)).flatMap (obsForShow shows n),
         ((List.range' i rem).filter
            (fun k => isTourStart shows threshold k)).flatMap (obsForShow shows n)) := by
  intro rem
  induction rem with
  | zero => intro i; rfl
  | succ d ih =>
    intro i
    have hr : List.range' i (d + 1) = i :: List.range' (i + 1) d := List.range'_succ i d 1
    rw [repeatObsAux, ih (i + 1), hr]
    by_cases ht : isTourStart shows threshold i
    · simp [ht]
    · simp [ht]

/-- C7: in `analyze_repeat_patterns`, the lookahead for a song occurrence at
show `i` yields `some j` exactly when `j` is the least offset in `1..n` at
which the song recurs among the shows that exist (windows past the end of the
data are truncated by the `i + j < length` bound); the two observation
buckets are exactly the per-show observation blocks of the shows that are
(respectively are not) tour starts, in chronological order; and each song
occurrence's observation — `repeated` with the recurrence offset as its gap —
lands in the `tour_start` bucket precisely when its show follows its
predecessor by more than the break threshold. -/
theorem C7_repeat_patterns (a : TourGapAnalyzer) (n : Nat) :
    (∀ i name j, findRepeat a.loader.shows i name n = some j ↔
      (1 ≤ j ∧ j ≤ n ∧ i + j < a.loader.shows.length ∧
       songInShow (a.loader.shows.getD (i + j) dShow) name = true ∧
       ∀ k, 1 ≤ k → k < j →
         songInShow (a.loader.shows.getD (i + k) dShow) name = false)) ∧
    (repeatObservations a n =
      (((List.range a.loader.shows.length).filter
          (fun k => !isTourStart a.loader.shows a.break_threshold k)).flatMap
            (obsForShow a.loader.shows n),
       ((List.range a.loader.shows.length).filter
          (fun k => isTourStart a.loader.shows a.break_threshold k)).flatMap
            (obsForShow a.loader.shows n))) ∧
    (∀ i, i < a.loader.shows.length →
      ∀ p ∈ (a.loader.shows.getD i dShow).songs,
        (if isTourStart a.loader.shows a.break_threshold i then
          ({ song := p.song_name,
             repeated := (findRepeat a.loader.shows i p.song_name n).isSome,
             gap := findRepeat a.loader.shows i p.song_name n } : RepeatObs) ∈
            (repeatObservations a n).2
        else
          ({ song := p.song_name,
             repeated := (findRepeat a.loader.shows i p.song_name n).isSome,
             gap := findRepeat a.loader.shows i p.song_name n } : RepeatObs) ∈
            (repeatObservations a n).1)) := by
  refine ⟨fun i name j => findRepeat_eq_some _ i name n j, ?_, ?_⟩
  · rw [repeatObservations, repeatObsAux_eq, List.range_eq_range']
  · intro i hi p hp
    have hobs : RepeatObs.mk p.song_name
        (findRepeat a.loader.shows i p.song_name n).isSome
        (findRepeat a.loader.shows i p.song_name n) ∈
          obsForShow a.loader.shows n i := by
      rw [obsForShow]
      exact List.mem_map.mpr ⟨p, hp, rfl⟩
    rw [repeatObservations, repeatObsAux_eq]
    have hir : i ∈ List.range' 0 a.loader.shows.length :=
      List.mem_range'_1.mpr ⟨by omega, by omega⟩
    by_cases ht : isTourStart a.loader.shows a.break_threshold i
    · rw [if_pos ht]
      exact List.mem_flatMap.mpr ⟨i, List.mem_filter.mpr ⟨hir, by simp [ht]⟩, hobs⟩
    · rw [if_neg ht]
      exact List.mem_flatMap.mpr ⟨i, List.mem_filter.mpr ⟨hir, by simp [ht]⟩, hobs⟩

/-- Witness for C7: the spec's two concrete scenarios with window 3 on
`exAnalyzer7` — song "R" played at the tour-start show recurs 2 shows later
(`repeated`, gap 2, tour_start bucket); song "Q" never recurs within the
window (`not repeated`, gap `none`, same bucket). -/
theorem C7_witness :
    (RepeatObs.mk "R" true (some 2)) ∈ (repeatObservations exAnalyzer7 3).2 ∧
    (RepeatObs.mk "Q" false none) ∈ (repeatObservations exAnalyzer7 3).2 := by
  have hR := (C7_repeat_patterns exAnalyzer7 3).2.2 2 (by decide)
    { song_name := "R", show_id := 3, show_date := 19, gap := 1 } (by decide)
  have hQ := (C7_repeat_patterns exAnalyzer7 3).2.2 2 (by decide)
    { song_name := "Q", show_id := 3, show_date := 19, gap := 1 } (by decide)
  rw [if_pos (by decide)] at hR hQ
  constructor
  · have he : findRepeat exAnalyzer7.loader.shows 2 "R" 3 = some 2 := by decide
    simpa [he] using hR
  · have he : findRepeat exAnalyzer7.loader.shows 2 "Q" 3 = none := by decide
    simpa [he] using hQ

end Phish
namespace Phish

lemma breakAt_succ (shows : List Show) (threshold : Int) (i : Nat) :
    breakAt shows threshold (i + 1) ↔
      threshold < dateAt shows (i + 1) - dateAt shows i := by
  simp [breakAt]

lemma segStart_le (shows : List Show) (threshold : Int) :
    ∀ i, segStart shows threshold i ≤ i := by
  intro i
  induction i with
  | zero => simp [segStart]
  | succ k ih =>
    rw [segStart]
    split_ifs
    · exact le_refl _
    · omega

lemma segStart_boundary (shows : List Show) (threshold : Int) :
    ∀ i, segStart shows threshold i = 0 ∨
      breakAt shows threshold (segStart shows threshold i) := by
  intro i
  induction i with
  | zero => exact Or.inl rfl
  | succ k ih =>
    rw [segStart]
    split_ifs with hb
    · exact Or.inr hb
    · exact ih

lemma segStart_no_break (shows : List Show) (threshold : Int) :
    ∀ i k, segStart shows threshold i < k → k ≤ i → ¬breakAt shows threshold k := by
  intro i
  induction i with
  | zero =>
    intro k h1 h2
    omega
  | succ m ih =>
    intro k h1 h2
    by_cases hb : breakAt shows threshold (m + 1)
    · rw [segStart, if_pos hb] at h1
      omega
    · rw [segStart, if_neg hb] at h1
      rcases Nat.lt_succ_iff_lt_or_eq.mp (Nat.lt_succ_of_le h2) with hk | hk
      · exact ih k h1 (by omega)
      · rw [hk]; exact hb

lemma countBefore_eq_segStart (shows : List Show) (threshold : Int) :
    ∀ i, countConsecutiveShowsBefore shows threshold i =
      i - segStart shows threshold i + 1 := by
  intro i
  induction i with
  | zero => rfl
  | succ k ih =>
    have hle := segStart_le shows threshold k
    by_cases hb : breakAt shows threshold (k + 1)
    · rw [countConsecutiveShowsBefore, segStart,
        if_pos ((breakAt_succ shows threshold k).mp hb), if_pos hb]
      omega
    · rw [countConsecutiveShowsBefore, segStart,
        if_neg (fun hc => hb ((breakAt_succ shows threshold k).mpr hc)), if_neg hb, ih]
      omega

lemma le_segEndAux (shows : List Show) (threshold : Int) :
    ∀ rem i, i ≤ segEndAux shows threshold i rem := by
  intro rem
  induction rem with
  | zero => intro i; exact le_refl i
  | succ d ih =>
    intro i
    rw [segEndAux]
    split_ifs
    · exact le_refl i
    · exact le_trans (Nat.le_succ i) (ih (i + 1))

lemma countAfterAux_eq_segEndAux (shows : List Show) (threshold : Int) :
    ∀ rem i, countAfterAux shows threshold i rem =
      segEndAux shows threshold i rem - i + 1 := by
  intro rem
  induction rem with
  | zero => intro i; simp [countAfterAux, segEndAux]
  | succ d ih =>
    intro i
    have hle := le_segEndAux shows threshold d (i + 1)
    by_cases hb : breakAt shows threshold (i + 1)
    · rw [countAfterAux, segEndAux,
        if_pos ((breakAt_succ shows threshold i).mp hb), if_pos hb]
      omega
    · rw [countAfterAux, segEndAux,
        if_neg (fun hc => hb ((breakAt_succ shows threshold i).mpr hc)), if_neg hb,
        ih (i + 1)]
      omega

lemma segEndAux_boundary (shows : List Show) (threshold : Int) :
    ∀ rem i, segEndAux shows threshold i rem = i + rem ∨
      breakAt shows threshold (segEndAux shows threshold i rem + 1) := by
  intro rem
  induction rem with
  | zero => intro i; exact Or.inl rfl
  | succ d ih =>
    intro i
    rw [segEndAux]
    split_ifs with hb
    · exact Or.inr hb
    · rcases ih (i + 1) with h | h
      · exact Or.inl (by omega)
      · exact Or.inr h

lemma segEndAux_no_break (shows : List Show) (threshold : Int) :
    ∀ rem i k, i < k → k ≤ segEndAux shows threshold i rem →
      ¬breakAt shows threshold k := by
  intro rem
  induction rem with
  | zero =>
    intro i k h1 h2
    rw [segEndAux] at h2
    omega
  | succ d ih =>
    intro i k h1 h2
    by_cases hb : breakAt shows threshold (i + 1)
    · rw [segEndAux, if_pos hb] at h2
      omega
    · rw [segEndAux, if_neg hb] at h2
      by_cases hk : k = i + 1
      · rw [hk]; exact hb
      · exact ih (i + 1) k (by omega) h2

lemma countAfter_eq_segEnd (shows : List Show) (threshold : Int) (i : Nat) :
    countConsecutiveShowsAfter shows threshold i = segEnd shows threshold i - i + 1 :=
  countAfterAux_eq_segEndAux shows threshold (shows.length - 1 - i) i

lemma mem_buildBreaksAux (shows : List Show) (threshold : Int) :
    ∀ (walked : List Show) (i : Nat), 1 ≤ i → walked = shows.drop (i - 1) →
      ∀ tb ∈ buildBreaksAux shows threshold i walked,
        ∃ j, 1 ≤ j ∧ j < shows.length ∧ breakAt shows threshold j ∧
          tb = mkBreak shows threshold j := by
  intro walked
  induction walked with
  | nil => intro i h1 h2 tb htb; simp [buildBreaksAux] at htb
  | cons p rest ih =>
    cases rest with
    | nil => intro i h1 h2 tb htb; simp [buildBreaksAux] at htb
    | cons c r =>
      intro i h1 h2 tb htb
      have hdrop1 : shows.drop i = c :: r := by
        have ht : (shows.drop (i - 1)).tail = shows.drop (i - 1 + 1) := List.tail_drop shows (i - 1)
        rw [← h2] at ht
        simpa [show i - 1 + 1 = i by omega] using ht.symm
      have hgp : shows[i - 1]? = some p := by
        rw [← List.head?_drop, ← h2]; rfl
      have hgc : shows[i]? = some c := by
        rw [← List.head?_drop, hdrop1]; rfl
      have hilen : i < shows.length := by
        by_contra hc
        rw [List.getElem?_eq_none (by omega)] at hgc
        cases hgc
      have hdp : shows.getD (i - 1) dShow = p := by
        simp [List.getD_eq_getElem?_getD, hgp]
      have hdc : shows.getD i dShow = c := by
        simp [List.getD_eq_getElem?_getD, hgc]
      rw [buildBreaksAux] at htb
      have hdays : dateAt shows i - dateAt shows (i - 1) = c.show_date - p.show_date := by
        rw [dateAt, dateAt, hdp, hdc]
      split_ifs at htb with hcond
      · rcases List.mem_cons.mp htb with rfl | htl
        · refine ⟨i, h1, hilen, ?_, ?_⟩
          · simp only [breakAt, hdays]
            exact hcond
          · rw [mkBreak, hdp, hdc, hdays]
        · exact ih (i + 1) (by omega) (by simpa using hdrop1.symm) tb htl
      · exact ih (i + 1) (by omega) (by simpa using hdrop1.symm) tb htb

/-- C9: every `TourBreak` the segmentation emits sits at a break position `j`
(shows `j - 1` and `j` more than `threshold` days apart), and its two
diagnostic run-length fields — computed by the separate backward and forward
scans — equal the lengths of the maximal contiguous runs (in the
segmentation's sense) ending at `j - 1` and starting at `j`: the two passes
agree. -/
theorem C9_run_length_agreement (shows : List Show) (threshold : Int) (tb : TourBreak)
    (htb : tb ∈ (identifyToursAndBreaks shows threshold).2) :
    ∃ j a e, 1 ≤ j ∧ j < shows.length ∧ breakAt shows threshold j ∧
      tb.end_show = shows.getD (j - 1) dShow ∧ tb.start_show = shows.getD j dShow ∧
      IsRunEndingAt shows threshold (j - 1) a ∧
      tb.shows_in_previous_tour = (j - 1) - a + 1 ∧
      IsRunStartingAt shows threshold j e ∧
      tb.shows_in_next_tour = e - j + 1 := by
  rw [identifyToursAndBreaks] at htb
  split_ifs at htb with hlen
  · simp at htb
  · obtain ⟨j, hj1, hj2, hbrk, rfl⟩ :=
      mem_buildBreaksAux shows threshold shows 1 le_rfl (by simp) tb htb
    refine ⟨j, segStart shows threshold (j - 1), segEnd shows threshold j,
      hj1, hj2, hbrk, rfl, rfl, ?_, ?_, ?_, ?_⟩
    · exact ⟨segStart_le shows threshold (j - 1),
        segStart_boundary shows threshold (j - 1),
        fun k hk1 hk2 => segStart_no_break shows threshold (j - 1) k hk1 hk2⟩
    · exact countBefore_eq_segStart shows threshold (j - 1)
    · refine ⟨le_segEndAux shows threshold _ j, ?_,
        fun k hk1 hk2 => segEndAux_no_break shows threshold _ j k hk1 hk2⟩
      rcases segEndAux_boundary shows threshold (shows.length - 1 - j) j with h | h
      · exact Or.inl (by rw [segEnd]; omega)
      · exact Or.inr h
    · exact countAfter_eq_segEnd shows threshold j

/-- The single `TourBreak` the segmentation emits on `exShows5a`. -/
def exBreak5a : TourBreak :=
  { end_show := mkShow 1 0 [], start_show := mkShow 2 15 [], days_between := 15,
    shows_in_previous_tour := 1, shows_in_next_tour := 1 }

/-- Witness for C9: the run-length agreement instantiated on the concrete
break of `exShows5a`. -/
theorem C9_witness :
    ∃ j a e, 1 ≤ j ∧ j < exShows5a.length ∧ breakAt exShows5a 14 j ∧
      exBreak5a.end_show = exShows5a.getD (j - 1) dShow ∧
      exBreak5a.start_show = exShows5a.getD j dShow ∧
      IsRunEndingAt exShows5a 14 (j - 1) a ∧
      exBreak5a.shows_in_previous_tour = (j - 1) - a + 1 ∧
      IsRunStartingAt exShows5a 14 j e ∧
      exBreak5a.shows_in_next_tour = e - j + 1 :=
  C9_run_length_agreement exShows5a 14 exBreak5a (by decide)

end Phish
